import Mathlib

/-!
Verification development for the mnxconverter repository (MusicXML → MNX).

The definitions below are a shallow embedding of the Python sources
(score.py, musicxml.py, mnx.py): pure fragments become Lean functions,
mutable reader state becomes explicit state passing, Python exceptions
become Except values, fractions.Fraction becomes Rat, and Python object
identity is modelled with an explicit object-id field where the source
relies on it.  Attribute lookups that the source performs on names a class
does not define are modelled through explicit attribute-name tables, so
that the resulting AttributeError behaviour is visible.
-/

namespace MnxConv

/-- Python exception kinds that the modelled fragments can raise (beyond the
converter's own NotationImportError / NotationDataError, which we model as
Except String). -/
inductive PyError where
  | attributeError
  | typeError
  | keyError
  | indexError
  | valueError
deriving DecidableEq, Repr

/-- Pitch, from score.py class Pitch: step, octave, alter.
Pitch.__eq__ compares the three fields structurally. -/
structure Pitch where
  step : String
  octave : Int
  alter : Int
deriving DecidableEq, Repr

/-- RhythmicDuration, from score.py: a Fraction plus a dot count.
RhythmicDuration.__eq__ compares frac and dots. -/
structure RhythmicDuration where
  frac : Rat
  dots : Nat
deriving DecidableEq, Repr

/-- Note, from score.py class Note.  The reader gives every Note object a
fresh note_id string; `oid` models Python object identity (each constructed
Note object gets a distinct oid, even in the corner case where note_id
strings repeat because next_note_id was not advanced for a discarded rest
Note).  `tie_end_note` models the attribute that
MusicXMLReader.parse_notations adds dynamically to a Note instance
(score.py's Note.__init__ does not define it): `none` means the instance
has no such attribute. -/
structure NoteE where
  oid : Nat
  note_id : String
  pitch : Option Pitch := none
  rendered_acc : Option Nat := none
  is_referenced : Bool := false
  tie_end_note : Option String := none
deriving DecidableEq, Repr

/-! ### C2: tie matching (musicxml.py, MusicXMLReader.get_open_tie_by_end_note) -/

/-- Python's `note.pitch == end_note.pitch` inside the matching loop.
`None == None` is True (NoneType falls back to identity); comparing a
Pitch with None raises AttributeError, because NoneType's __eq__ returns
NotImplemented and the (possibly reflected) Pitch.__eq__ (score.py lines
407-408) then evaluates `other.step` — i.e. None.step; two Pitch objects
compare structurally. -/
def pitch_eq_py : Option Pitch → Option Pitch → Except PyError Bool
  | none, none => .ok true
  | none, some _ => .error .attributeError
  | some _, none => .error .attributeError
  | some p, some q => .ok (decide (p = q))

/-- get_open_tie_by_end_note, from musicxml.py lines 768-773: walks
self.open_ties in order; the loop condition evaluates
`note != end_note` (object identity — Note defines no __eq__ — modelled
by oid) and, only when the objects differ, `note.pitch == end_note.pitch`
with the Python semantics of pitch_eq_py (so a pitchless open-tie entry,
as left by <tied type="start"> inside a rest <note>, raises
AttributeError when reached).  The first matching entry is deleted and
returned; with no match the list is left untouched and None returned. -/
def get_open_tie_by_end_note : List NoteE → NoteE →
    Except PyError (Option NoteE × List NoteE)
  | [], _ => .ok (none, [])
  | n :: rest, endNote =>
      if n.oid ≠ endNote.oid then
        match pitch_eq_py n.pitch endNote.pitch with
        | .error e => .error e
        | .ok true => .ok (some n, rest)
        | .ok false =>
            match get_open_tie_by_end_note rest endNote with
            | .error e => .error e
            | .ok p => .ok (p.1, n :: p.2)
      else
        match get_open_tie_by_end_note rest endNote with
        | .error e => .error e
        | .ok p => .ok (p.1, n :: p.2)

/-- How the <tied type="stop"> branch can fail: with the converter's own
NotationDataError, or with an uncaught Python exception. -/
inductive TieStopError where
  | dataError (msg : String)
  | pyError (e : PyError)
deriving DecidableEq, Repr

/-- The <tied type="stop"> branch of MusicXMLReader.parse_notations
(musicxml.py lines 615-622): requires the stopping note to have a pitch,
then consumes the matching open tie (if any), records the stopping note's
id as the start note's tie_end_note and marks the stopping note
referenced.  Returns the (updated start note, updated stop note) pair when
a tie was consumed, together with the remaining open-ties list; an
AttributeError from the pitch comparison propagates. -/
def parse_tied_stop (openTies : List NoteE) (note : NoteE) :
    Except TieStopError (Option (NoteE × NoteE) × List NoteE) :=
  if note.pitch = none then
    .error (.dataError
      "NotationDataError: <tied> must come after <pitch> within <note>.")
  else
    match get_open_tie_by_end_note openTies note with
    | .error e => .error (.pyError e)
    | .ok (some startNote, rest) =>
        .ok (some ({ startNote with tie_end_note := some note.note_id },
                   { note with is_referenced := true }), rest)
    | .ok (none, rest) => .ok (none, rest)

theorem pitch_eq_py_ok_true {a b : Option Pitch}
    (h : pitch_eq_py a b = .ok true) : a = b := by
  cases a <;> cases b <;> simp_all [pitch_eq_py]

theorem pitch_eq_py_ok_false {a b : Option Pitch}
    (h : pitch_eq_py a b = .ok false) : a ≠ b := by
  cases a <;> cases b <;> simp_all [pitch_eq_py]

theorem get_open_tie_ok_none (ties : List NoteE) (note : NoteE)
    (rest : List NoteE)
    (h : get_open_tie_by_end_note ties note = .ok (none, rest)) :
    rest = ties ∧ ∀ n ∈ ties, ¬ (n.oid ≠ note.oid ∧ n.pitch = note.pitch) := by
  induction ties generalizing rest with
  | nil =>
      simp only [get_open_tie_by_end_note, Except.ok.injEq, Prod.mk.injEq,
        true_and] at h
      exact ⟨h.symm, by simp⟩
  | cons n tl ih =>
      by_cases hoid : n.oid ≠ note.oid
      · cases hpe : pitch_eq_py n.pitch note.pitch with
        | error e =>
            simp only [get_open_tie_by_end_note, if_pos hoid, hpe] at h
            cases h
        | ok b =>
            cases b with
            | true =>
                simp only [get_open_tie_by_end_note, if_pos hoid, hpe] at h
                cases h
            | false =>
                simp only [get_open_tie_by_end_note, if_pos hoid, hpe] at h
                cases hrec : get_open_tie_by_end_note tl note with
                | error e => rw [hrec] at h; cases h
                | ok q =>
                    rw [hrec] at h
                    obtain ⟨q1, q2⟩ := q
                    simp only [Except.ok.injEq, Prod.mk.injEq] at h
                    obtain ⟨h1, h2⟩ := h
                    obtain ⟨hq2, hnm⟩ := ih q2 (by rw [hrec, h1])
                    refine ⟨by rw [← h2, hq2], ?_⟩
                    intro m hm
                    rcases List.mem_cons.mp hm with hh | hh
                    · subst hh
                      rintro ⟨-, hpeq⟩
                      exact pitch_eq_py_ok_false hpe hpeq
                    · exact hnm m hh
      · simp only [get_open_tie_by_end_note, if_neg hoid] at h
        cases hrec : get_open_tie_by_end_note tl note with
        | error e => rw [hrec] at h; cases h
        | ok q =>
            rw [hrec] at h
            obtain ⟨q1, q2⟩ := q
            simp only [Except.ok.injEq, Prod.mk.injEq] at h
            obtain ⟨h1, h2⟩ := h
            obtain ⟨hq2, hnm⟩ := ih q2 (by rw [hrec, h1])
            refine ⟨by rw [← h2, hq2], ?_⟩
            intro m hm
            rcases List.mem_cons.mp hm with hh | hh
            · subst hh
              rintro ⟨hne, -⟩
              exact hoid hne
            · exact hnm m hh

theorem get_open_tie_ok_some (ties : List NoteE) (note s : NoteE)
    (rest : List NoteE)
    (h : get_open_tie_by_end_note ties note = .ok (some s, rest)) :
    ∃ l₁ l₂, ties = l₁ ++ s :: l₂ ∧ rest = l₁ ++ l₂ ∧
      s.oid ≠ note.oid ∧ s.pitch = note.pitch ∧
      ∀ n ∈ l₁, ¬ (n.oid ≠ note.oid ∧ n.pitch = note.pitch) := by
  induction ties generalizing rest with
  | nil => simp [get_open_tie_by_end_note] at h
  | cons n tl ih =>
      by_cases hoid : n.oid ≠ note.oid
      · cases hpe : pitch_eq_py n.pitch note.pitch with
        | error e =>
            simp only [get_open_tie_by_end_note, if_pos hoid, hpe] at h
            cases h
        | ok b =>
            cases b with
            | true =>
                simp only [get_open_tie_by_end_note, if_pos hoid, hpe,
                  Except.ok.injEq, Prod.mk.injEq, Option.some.injEq] at h
                obtain ⟨h1, h2⟩ := h
                subst h1
                exact ⟨[], tl, by simp, by simp [h2], hoid,
                  pitch_eq_py_ok_true hpe, by simp⟩
            | false =>
                simp only [get_open_tie_by_end_note, if_pos hoid, hpe] at h
                cases hrec : get_open_tie_by_end_note tl note with
                | error e => rw [hrec] at h; cases h
                | ok q =>
                    rw [hrec] at h
                    obtain ⟨q1, q2⟩ := q
                    simp only [Except.ok.injEq, Prod.mk.injEq] at h
                    obtain ⟨h1, h2⟩ := h
                    obtain ⟨l₁, l₂, g1, g2, g3, g4, g5⟩ :=
                      ih q2 (by rw [hrec, h1])
                    refine ⟨n :: l₁, l₂, by simp [g1], by simp [← h2, g2], g3,
                      g4, ?_⟩
                    intro m hm
                    rcases List.mem_cons.mp hm with hh | hh
                    · subst hh
                      rintro ⟨-, hpeq⟩
                      exact pitch_eq_py_ok_false hpe hpeq
                    · exact g5 m hh
      · simp only [get_open_tie_by_end_note, if_neg hoid] at h
        cases hrec : get_open_tie_by_end_note tl note with
        | error e => rw [hrec] at h; cases h
        | ok q =>
            rw [hrec] at h
            obtain ⟨q1, q2⟩ := q
            simp only [Except.ok.injEq, Prod.mk.injEq] at h
            obtain ⟨h1, h2⟩ := h
            obtain ⟨l₁, l₂, g1, g2, g3, g4, g5⟩ := ih q2 (by rw [hrec, h1])
            refine ⟨n :: l₁, l₂, by simp [g1], by simp [← h2, g2], g3, g4, ?_⟩
            intro m hm
            rcases List.mem_cons.mp hm with hh | hh
            · subst hh
              rintro ⟨hne, -⟩
              exact hoid hne
            · exact g5 m hh

theorem pitch_eq_py_some_some (q p : Pitch) :
    pitch_eq_py (some q) (some p) = .ok (decide (q = p)) := rfl

theorem get_open_tie_total_of_pitched (ties : List NoteE) (note : NoteE)
    (p : Pitch) (hp : note.pitch = some p)
    (hall : ∀ n ∈ ties, n.pitch ≠ none) :
    ∃ r, get_open_tie_by_end_note ties note = .ok r := by
  induction ties with
  | nil => exact ⟨(none, []), rfl⟩
  | cons n tl ih =>
      have hn : n.pitch ≠ none := hall n (by simp)
      obtain ⟨q, hq⟩ : ∃ q, n.pitch = some q := by
        cases hnp : n.pitch with
        | none => exact absurd hnp hn
        | some q => exact ⟨q, rfl⟩
      obtain ⟨r, hr⟩ := ih fun m hm => hall m (by simp [hm])
      by_cases hoid : n.oid ≠ note.oid
      · by_cases hqp : q = p
        · refine ⟨(some n, tl), ?_⟩
          simp [get_open_tie_by_end_note, if_pos hoid, hq, hp,
            pitch_eq_py_some_some, hqp]
        · refine ⟨(r.1, n :: r.2), ?_⟩
          simp [get_open_tie_by_end_note, if_pos hoid, hq, hp,
            pitch_eq_py_some_some, hqp, hr]
      · exact ⟨(r.1, n :: r.2), by simp [get_open_tie_by_end_note,
          if_neg hoid, hr]⟩

/-- Counterexample to claim C2 as stated: with the open-ties list holding
one pitchless Note — exactly what <tied type="start"> inside a rest
<note> leaves there, since parse_notations appends the note with no
pitch/rest check — and a pitched D4 stop note, the source neither skips
the differing-pitch entry nor leaves the stop without effect: the
reflected Pitch.__eq__ evaluates None.step, so the comparison itself
raises AttributeError and conversion crashes. -/
theorem tie_stop_pitchless_open_tie_crashes :
    parse_tied_stop [{ oid := 5, note_id := "note1", pitch := none }]
        { oid := 6, note_id := "note2", pitch := some ⟨"D", 4, 0⟩ } =
      .error (.pyError .attributeError) ∧
    pitch_eq_py none (some ⟨"D", 4, 0⟩) = .error .attributeError := by
  exact ⟨rfl, rfl⟩

/-- Claim C2, amended: for every <tied type="stop"> on a pitched note,
whenever the open-ties scan completes (in particular, always, when every
open-tie entry is pitched — third conjunct), the reader consumes exactly
the earliest entry of the open-ties list (in open order) whose pitch
equals the stopping note's pitch and which is not the stopping note
itself, removing it from the list exactly once and recording the stopping
note as that tie's end; an open tie whose note has a differing pitch is
never matched, and if no open tie of equal pitch exists the stop marker
has no effect.  (A pitchless open tie reached during the scan instead
crashes the conversion with AttributeError — see the counterexample.) -/
theorem tie_stop_consumes_earliest_match (ties : List NoteE) (note : NoteE)
    (p : Pitch) (hp : note.pitch = some p) :
    (∀ s rest, get_open_tie_by_end_note ties note = .ok (some s, rest) →
        ∃ l₁ l₂, ties = l₁ ++ s :: l₂ ∧ rest = l₁ ++ l₂ ∧
          s.oid ≠ note.oid ∧ s.pitch = note.pitch ∧
          (∀ n ∈ l₁, ¬ (n.oid ≠ note.oid ∧ n.pitch = note.pitch)) ∧
          parse_tied_stop ties note =
            .ok (some ({ s with tie_end_note := some note.note_id },
                       { note with is_referenced := true }), rest)) ∧
    (∀ rest, get_open_tie_by_end_note ties note = .ok (none, rest) →
        rest = ties ∧
        (∀ n ∈ ties, ¬ (n.oid ≠ note.oid ∧ n.pitch = note.pitch)) ∧
        parse_tied_stop ties note = .ok (none, ties)) ∧
    ((∀ n ∈ ties, n.pitch ≠ none) →
        ∃ r, get_open_tie_by_end_note ties note = .ok r) := by
  have hnp : ¬ note.pitch = none := by simp [hp]
  refine ⟨?_, ?_, ?_⟩
  · intro s rest h
    obtain ⟨l₁, l₂, h1, h2, h3, h4, h5⟩ :=
      get_open_tie_ok_some ties note s rest h
    exact ⟨l₁, l₂, h1, h2, h3, h4, h5,
      by simp only [parse_tied_stop, hnp, if_false, h]⟩
  · intro rest h
    obtain ⟨hrest, hnm⟩ := get_open_tie_ok_none ties note rest h
    subst hrest
    exact ⟨rfl, hnm, by simp only [parse_tied_stop, hnp, if_false, h]⟩
  · exact get_open_tie_total_of_pitched ties note p hp

/-- Witness for C2 (amended) at a concrete input: open tie on C4
(differing pitch, skipped), then an open tie on D4 (consumed), stop note
D4; both open ties are pitched, so the scan completes. -/
theorem tie_stop_consumes_earliest_match_witness :
    let d4 : Pitch := ⟨"D", 4, 0⟩
    let c4 : Pitch := ⟨"C", 4, 0⟩
    let n1 : NoteE := { oid := 1, note_id := "note1", pitch := some c4 }
    let n2 : NoteE := { oid := 2, note_id := "note2", pitch := some d4 }
    let stop : NoteE := { oid := 3, note_id := "note3", pitch := some d4 }
    ∃ l₁ l₂, [n1, n2] = l₁ ++ n2 :: l₂ ∧ ([n1] : List NoteE) = l₁ ++ l₂ ∧
      n2.oid ≠ stop.oid ∧ n2.pitch = stop.pitch ∧
      (∀ n ∈ l₁, ¬ (n.oid ≠ stop.oid ∧ n.pitch = stop.pitch)) ∧
      parse_tied_stop [n1, n2] stop =
        .ok (some ({ n2 with tie_end_note := some stop.note_id },
                   { stop with is_referenced := true }), [n1]) := by
  intro d4 c4 n1 n2 stop
  exact (tie_stop_consumes_earliest_match [n1, n2] stop d4 rfl).1 n2 [n1] rfl

/-! ### Score model: events, sequence items (score.py) -/

/-- Slur, from score.py class Slur, together with the `is_incomplete` and
`incomplete_type` attributes that MusicXMLReader.add_slur adds dynamically
(`none` models a missing attribute). -/
structure SlurE where
  is_incomplete : Option Bool := none
  incomplete_type : Option Int := none
  end_event_id : Option String := none
  side : Option Nat := none
  start_note : Option String := none
  end_note : Option String := none
deriving DecidableEq, Repr

/-- The Marking class family from score.py (articulations/ornaments). -/
inductive MarkingE where
  | accent | breath | softAccent | spiccato | staccato | staccatissimo
  | stress | strongAccent | tenuto | unstress
  | tremolo (marks : Int)
deriving DecidableEq, Repr

/-- EventItem, from score.py: a Note or a Rest (Rest objects carry no
data, but have Python object identity, modelled by an oid). -/
inductive EventItemE where
  | note (n : NoteE)
  | rest (oid : Nat)
deriving DecidableEq, Repr

/-- Event, from score.py class Event.  Both creation sites in parse_note
increment next_event_id, so event_id strings are unique per Event object
and serve as object identity in this model. -/
structure EventE where
  event_id : String
  duration : RhythmicDuration
  event_items : List EventItemE := []
  slurs : List SlurE := []
  markings : List MarkingE := []
  is_referenced : Bool := false
deriving DecidableEq, Repr

/-- TupletRatio, from score.py. -/
structure TupletRatioE where
  outer_numerator : Int
  outer_denominator : Int
  inner_numerator : Int
  inner_denominator : Int
deriving DecidableEq, Repr

/-- The value Score.get_event_measure_rhythmic_position returns: a
MeasureRhythmicPosition (one-based measure plus a bar fraction; the
grace_index is hard-coded 0 in the source), or the empty string when the
event was not found. -/
inductive MRPosResult where
  | found (measure : Nat) (fraction : Rat)
  | emptyStr
deriving DecidableEq, Repr

/-- SequenceItem, from score.py: Event, Tuplet (nested content plus
ratio), GraceNoteGroup, or the only SequenceDirection (Ottava, whose
shift_type is one of the Ottava.TYPE_* codes 1..6). -/
inductive SeqItemE where
  | event (e : EventE)
  | tuplet (ratio : TupletRatioE) (items : List SeqItemE)
  | graceGroup (events : List EventE)
  | ottava (shift_type : Nat) (end_pos : MRPosResult)

/-! ### C3: chord merging (musicxml.py, MusicXMLReader.parse_note) -/

/-- Sequence.get_last_event walks `reversed(self.items)` and returns the
first top-level Event (items inside Tuplets or GraceNoteGroups are not
considered).  This helper is that scan over an already reversed list. -/
def last_event_of_rev : List SeqItemE → Option EventE
  | [] => none
  | .event e :: _ => some e
  | _ :: tl => last_event_of_rev tl

/-- Sequence.get_last_event, from score.py lines 206-210. -/
def get_last_event (items : List SeqItemE) : Option EventE :=
  last_event_of_rev items.reverse

/-- In-place `event.event_items.append(event_item)` on the Event object
returned by get_last_event: rewrites the last top-level Event of the
(reversed) item list. -/
def append_item_rev (it : EventItemE) : List SeqItemE → List SeqItemE
  | [] => []
  | .event e :: tl =>
      .event { e with event_items := e.event_items ++ [it] } :: tl
  | x :: tl => x :: append_item_rev it tl

/-- Append an EventItem to the last top-level Event of a sequence's item
list (the aliasing-free rendering of the source's in-place append). -/
def append_item_to_last_event (items : List SeqItemE) (it : EventItemE) :
    List SeqItemE :=
  (append_item_rev it items.reverse).reverse

/-- The is_chord branch of MusicXMLReader.parse_note (musicxml.py lines
538-550 together with the event_items.append on line 571 and the return
value on lines 588-591): merge into the last Event of the voice's
sequence, raising NotationDataError when the durations differ (both
durations are always RhythmicDuration objects here, hence truthy, so the
source's `rhythmic_duration and event.duration and ...` guard reduces to
the inequality test); when no previous Event exists, a fresh Event is
created and appended.  Returns the updated item list, the next event id
counter, and the position advance (0 for chord members: parse_note
returns 0 whenever is_chord is true). -/
def parse_note_chord (items : List SeqItemE) (rd : RhythmicDuration)
    (it : EventItemE) (nextEventId : Nat) :
    Except String (List SeqItemE × Nat × Int) :=
  match get_last_event items with
  | some ev =>
      if ev.duration ≠ rd then
        .error "NotationDataError: two <note>s within the same chord had different durations."
      else
        .ok (append_item_to_last_event items it, nextEventId, 0)
  | none =>
      let ev : EventE :=
        { event_id := "ev" ++ toString nextEventId, duration := rd,
          event_items := [it] }
      .ok (items ++ [SeqItemE.event ev], nextEventId + 1, 0)

/-- Whether a SequenceItem is an Event (isinstance check of the source). -/
def is_event_item : SeqItemE → Bool
  | .event _ => true
  | _ => false

theorem last_event_rev_split (l : List SeqItemE) (ev : EventE)
    (h : last_event_of_rev l = some ev) :
    ∃ l₁ l₂, l = l₁ ++ SeqItemE.event ev :: l₂ ∧
      (∀ x ∈ l₁, is_event_item x = false) ∧
      ∀ it, append_item_rev it l =
        l₁ ++ SeqItemE.event { ev with event_items := ev.event_items ++ [it] }
          :: l₂ := by
  induction l with
  | nil => simp [last_event_of_rev] at h
  | cons x tl ih =>
      cases x with
      | event e =>
          simp [last_event_of_rev] at h
          subst h
          exact ⟨[], tl, by simp, by simp, fun it => by simp [append_item_rev]⟩
      | tuplet r its =>
          simp only [last_event_of_rev] at h
          obtain ⟨l₁, l₂, h1, h2, h3⟩ := ih h
          refine ⟨.tuplet r its :: l₁, l₂, by simp [h1], ?_, ?_⟩
          · intro y hy
            rcases List.mem_cons.mp hy with hh | hh
            · subst hh; rfl
            · exact h2 y hh
          · intro it; simp [append_item_rev, h3 it]
      | graceGroup evs =>
          simp only [last_event_of_rev] at h
          obtain ⟨l₁, l₂, h1, h2, h3⟩ := ih h
          refine ⟨.graceGroup evs :: l₁, l₂, by simp [h1], ?_, ?_⟩
          · intro y hy
            rcases List.mem_cons.mp hy with hh | hh
            · subst hh; rfl
            · exact h2 y hh
          · intro it; simp [append_item_rev, h3 it]
      | ottava s p =>
          simp only [last_event_of_rev] at h
          obtain ⟨l₁, l₂, h1, h2, h3⟩ := ih h
          refine ⟨.ottava s p :: l₁, l₂, by simp [h1], ?_, ?_⟩
          · intro y hy
            rcases List.mem_cons.mp hy with hh | hh
            · subst hh; rfl
            · exact h2 y hh
          · intro it; simp [append_item_rev, h3 it]

/-- Claim C3: when a <chord>-flagged note merges into an existing last
Event of its voice's sequence, differing durations raise
NotationDataError; equal durations append the note to that existing Event
(the Event get_last_event found, which is the last top-level Event of the
sequence) and do not advance the position cursor (advance 0). -/
theorem chord_merge_requires_equal_duration (items : List SeqItemE)
    (rd : RhythmicDuration) (it : EventItemE) (nid : Nat) (ev : EventE)
    (h : get_last_event items = some ev) :
    (ev.duration ≠ rd →
       parse_note_chord items rd it nid =
         .error "NotationDataError: two <note>s within the same chord had different durations.") ∧
    (ev.duration = rd →
       parse_note_chord items rd it nid =
         .ok (append_item_to_last_event items it, nid, 0) ∧
       ∃ pre post, items = pre ++ SeqItemE.event ev :: post ∧
         (∀ x ∈ post, is_event_item x = false) ∧
         append_item_to_last_event items it =
           pre ++
             SeqItemE.event { ev with event_items := ev.event_items ++ [it] }
             :: post) := by
  constructor
  · intro hne
    simp only [parse_note_chord, h, hne, if_true]
    simp [hne]
  · intro heq
    refine ⟨by simp [parse_note_chord, h, heq], ?_⟩
    obtain ⟨l₁, l₂, h1, h2, h3⟩ := last_event_rev_split items.reverse ev h
    refine ⟨l₂.reverse, l₁.reverse, ?_, ?_, ?_⟩
    · have := congrArg List.reverse h1
      simpa using this
    · intro x hx
      exact h2 x (List.mem_reverse.mp hx)
    · unfold append_item_to_last_event
      rw [h3 it]
      simp

/-- Witness for C3: a quarter-note chord member merging into an existing
quarter-note Event. -/
theorem chord_merge_requires_equal_duration_witness :
    let q : RhythmicDuration := ⟨(1 : Rat) / 4, 0⟩
    let n : NoteE := { oid := 1, note_id := "note1", pitch := some ⟨"C", 4, 0⟩ }
    let ev : EventE := { event_id := "ev1", duration := q,
                         event_items := [.note n] }
    let n2 : NoteE := { oid := 2, note_id := "note2", pitch := some ⟨"E", 4, 0⟩ }
    parse_note_chord [SeqItemE.event ev] q (.note n2) 2 =
      .ok (append_item_to_last_event [SeqItemE.event ev] (.note n2), 2, 0) ∧
    ∃ pre post, [SeqItemE.event ev] = pre ++ SeqItemE.event ev :: post ∧
      (∀ x ∈ post, is_event_item x = false) ∧
      append_item_to_last_event [SeqItemE.event ev] (.note n2) =
        pre ++
          SeqItemE.event { ev with event_items := ev.event_items ++ [.note n2] }
          :: post := by
  intro q n ev n2
  exact (chord_merge_requires_equal_duration [SeqItemE.event ev] q (.note n2)
    2 ev rfl).2 rfl

/-! ### C7: octave-shift markers (musicxml.py, MusicXMLReader.parse_octave_shift) -/

/-- OCTAVE_SHIFT_TYPES_FOR_IMPORT, from musicxml.py lines 44-53, mapping
(size, type) to the Ottava.TYPE_* codes of score.py (8VA=1, 8VB=2,
15MA=3, 15MB=4, 22MA=5, 22MB=6; "16" is the tolerated non-standard alias
of 15). -/
def octave_shift_types_for_import (size ty : String) : Option Nat :=
  match size, ty with
  | "8", "down" => some 1
  | "8", "up" => some 2
  | "15", "down" => some 3
  | "15", "up" => some 4
  | "16", "down" => some 3
  | "16", "up" => some 4
  | "22", "down" => some 5
  | "22", "up" => some 6
  | _, _ => none

/-- The reader's octave-shift state: current_octave_shift is None or a
[shift_type, note_list] pair (member event items tracked by their object
ids), and complete_octave_shifts accumulates finished shifts. -/
structure OctaveShiftState where
  current : Option (Nat × List Nat) := none
  complete : List (Nat × List Nat) := []
deriving DecidableEq, Repr

/-- MusicXMLReader.parse_octave_shift, musicxml.py lines 425-446.  `ty` is
the element's optional `type` attribute and `sizeAttr` its optional
`size` attribute (defaulting to "8").  Note that for type up/down the
source's check of an already-open shift is a bare `pass` (a TODO), after
which current_octave_shift is unconditionally overwritten; for type stop
with an open shift whose member list is empty, the source returns early
and the shift stays open. -/
def parse_octave_shift (st : OctaveShiftState) (ty : Option String)
    (sizeAttr : Option String) : Except String OctaveShiftState :=
  if ty = some "up" ∨ ty = some "down" then
    let size := sizeAttr.getD "8"
    match octave_shift_types_for_import size (ty.getD "") with
    | none =>
        .error "NotationDataError: unsupported octave-shift type/size combination."
    | some code => .ok { st with current := some (code, []) }
  else if ty = some "stop" then
    match st.current with
    | none => .ok st
    | some (code, notes) =>
        if notes = [] then .ok st
        else .ok { current := none, complete := st.complete ++ [(code, notes)] }
  else .ok st

/-- Counterexample to claim C7: with an 8vb shift open and holding one
member note, a second marker of type "down" is not ignored — it replaces
the open shift (the accumulated member list is discarded and a fresh
empty one installed), while indeed raising no error. -/
theorem octave_shift_second_marker_not_ignored :
    parse_octave_shift { current := some (2, [7]), complete := [] }
        (some "down") (some "8") =
      .ok { current := some (1, []), complete := [] } ∧
    (some (1, ([] : List Nat)) : Option (Nat × List Nat)) ≠ some (2, [7]) := by
  constructor
  · rfl
  · decide

/-- Claim C7, amended: if an octave-shift marker of type "up" or "down"
with a supported (size, type) combination is encountered while a shift is
already open, no error is raised, but the marker is not ignored: it
replaces the open shift, so the new marker becomes the current shift with
an empty member list and the previously accumulated member notes are
discarded (the completed list is untouched). -/
theorem octave_shift_open_marker_overwrites (st : OctaveShiftState)
    (ty : String) (sizeAttr : Option String) (code : Nat)
    (hty : ty = "up" ∨ ty = "down")
    (hcode : octave_shift_types_for_import (sizeAttr.getD "8") ty = some code) :
    parse_octave_shift st (some ty) sizeAttr =
      .ok { st with current := some (code, []) } := by
  have hty' : (some ty = some "up" ∨ some ty = some "down") := by
    rcases hty with h | h <;> [left; right] <;> rw [h]
  simp only [parse_octave_shift, hty', if_true]
  have : (some ty).getD "" = ty := rfl
  rw [this, hcode]

/-- Witness for C7 (amended) at a concrete state: open shift (2, [7]),
second marker type "down" with no size attribute. -/
theorem octave_shift_open_marker_overwrites_witness :
    parse_octave_shift { current := some (2, [7]), complete := [(5, [3])] }
        (some "down") none =
      .ok { current := some (1, []), complete := [(5, [3])] } := by
  exact octave_shift_open_marker_overwrites
    { current := some (2, [7]), complete := [(5, [3])] } "down" none 1
    (Or.inr rfl) rfl

/-! ### C5: key/time signature "changed" flags (score.py, class Bar) -/

/-- TimeSignature, from score.py class Bar's documented content (count,
unit, display). -/
structure TimeSigE where
  count : Int
  unit : Int
  display : Option String := none
deriving DecidableEq, Repr

/-- TimeSignature.equals, from score.py lines 461-462. -/
def timesig_equals (a b : TimeSigE) : Bool :=
  a.count = b.count && a.unit = b.unit && a.display = b.display

/-- Bar, from score.py class Bar; keysig holds the KeySignature's fifths
value (KeySignature.__eq__ compares fifths only). Only the fields the
flag computations read are modelled here. -/
structure BarE where
  timesig : Option TimeSigE := none
  keysig : Option Int := none
  start_repeat : Bool := false
  end_repeat : Int := 0
  start_ending : Option (List Int) := none
deriving DecidableEq, Repr

instance : Inhabited BarE := ⟨{}⟩

/-- Bar.timesig_changed, from score.py lines 83-90: bar 0 is always
"changed"; a bar without its own timesig is never "changed"; otherwise
the bar's own timesig is compared (TimeSignature.equals) against the
previous bar's own timesig. -/
def timesig_changed (bars : List BarE) (idx : Nat) : Bool :=
  if idx = 0 then true
  else
    match (bars.getD idx default).timesig with
    | none => false
    | some t =>
        match (bars.getD (idx - 1) default).timesig with
        | none => true
        | some p => !(timesig_equals p t)

/-- Bar.active_keysig, from score.py lines 92-105: walk backward from this
bar (inclusive) until a bar defines a keysig; fall back to the default
(fifths = 0). -/
def active_keysig (bars : List BarE) : Nat → Int
  | 0 => ((bars.getD 0 default).keysig).getD 0
  | i + 1 =>
      match (bars.getD (i + 1) default).keysig with
      | some k => k
      | none => active_keysig bars i

/-- Bar.keysig_changed, from score.py lines 107-110. -/
def keysig_changed (bars : List BarE) (idx : Nat) : Bool :=
  (decide (idx = 0) &&
    (match (bars.getD 0 default).keysig with
     | some k => decide (k ≠ 0)
     | none => false)) ||
  (decide (idx ≠ 0) &&
    decide (active_keysig bars (idx - 1) ≠ active_keysig bars idx))

/-- Modelled from the spec: the claim's notion of a bar's *effective* time
signature ("A bar's effective key/time signature is not necessarily its
own"), walking backward to the nearest bar that defines one — the
time-signature analogue of Bar.active_keysig, which the source does not
implement.  Used only to compare the source's behaviour against the
claim. -/
def spec_effective_timesig (bars : List BarE) : Nat → Option TimeSigE
  | 0 => (bars.getD 0 default).timesig
  | i + 1 =>
      match (bars.getD (i + 1) default).timesig with
      | some t => some t
      | none => spec_effective_timesig bars i

/-- Counterexample to claim C5: with bars [3/4, (none), 3/4], bar 2's
effective time signature equals bar 1's effective time signature (both
3/4, inherited from bar 0), yet timesig_changed reports true — the source
compares literal per-bar values, not effective ones.  Moreover a bar 0
with no time signature at all (the default) still reports
timesig_changed true, not "changed exactly when non-default". -/
theorem timesig_changed_not_effective_counterexample :
    (spec_effective_timesig
        [{ timesig := some ⟨3, 4, none⟩ }, {}, { timesig := some ⟨3, 4, none⟩ }] 2 =
      spec_effective_timesig
        [{ timesig := some ⟨3, 4, none⟩ }, {}, { timesig := some ⟨3, 4, none⟩ }] 1) ∧
    timesig_changed
        [{ timesig := some ⟨3, 4, none⟩ }, {}, { timesig := some ⟨3, 4, none⟩ }] 2 =
      true ∧
    timesig_changed [{}] 0 = true := by
  refine ⟨rfl, rfl, rfl⟩

/-- Claim C5, amended: the key-signature flag behaves as claimed — bar 0
reports keysig "changed" exactly when it carries an explicit keysig with
fifths ≠ 0, and a later bar reports "changed" exactly when its effective
(active) keysig differs from the previous bar's effective keysig.  The
time-signature flag, however, compares literal per-bar values: bar 0
always reports "changed"; a later bar without its own timesig reports
"not changed"; and a later bar with its own timesig reports "changed"
exactly when the previous bar has no timesig of its own or has an unequal
one. -/
theorem changed_flags_semantics (bars : List BarE) (idx : Nat)
    (h : idx < bars.length) :
    (keysig_changed bars idx = true ↔
      (if idx = 0 then
        ∃ k, (bars.getD 0 default).keysig = some k ∧ k ≠ 0
      else active_keysig bars (idx - 1) ≠ active_keysig bars idx)) ∧
    (idx = 0 → timesig_changed bars idx = true) ∧
    (idx ≠ 0 →
      (timesig_changed bars idx = true ↔
        ∃ t, (bars.getD idx default).timesig = some t ∧
          ((bars.getD (idx - 1) default).timesig = none ∨
           ∃ p, (bars.getD (idx - 1) default).timesig = some p ∧
             timesig_equals p t = false))) := by
  refine ⟨?_, ?_, ?_⟩
  · by_cases h0 : idx = 0
    · subst h0
      simp only [keysig_changed, if_pos rfl]
      cases hk : (bars.getD 0 default).keysig with
      | none => simp
      | some k =>
          by_cases hk0 : k = 0
          · subst hk0; simp
          · simp [hk0]
    · simp [keysig_changed, h0]
  · intro h0; simp [timesig_changed, h0]
  · intro h0
    simp only [timesig_changed, if_neg h0]
    cases ht : (bars.getD idx default).timesig with
    | none => simp
    | some t =>
        cases hp : (bars.getD (idx - 1) default).timesig with
        | none => simp
        | some p =>
            simp only [Bool.not_eq_true']
            constructor
            · intro hb
              exact ⟨t, rfl, Or.inr ⟨p, rfl, hb⟩⟩
            · rintro ⟨t', ht', hor⟩
              cases ht'
              rcases hor with hh | ⟨p', hp', hb⟩
              · exact absurd hh (by simp)
              · cases hp'; exact hb

/-- Witness for C5 (amended) at a concrete input: the three bars of the
counterexample, at index 2. -/
theorem changed_flags_semantics_witness :
    (keysig_changed
        [{ timesig := some ⟨3, 4, none⟩ }, {}, { timesig := some ⟨3, 4, none⟩ }] 2 =
          true ↔
      (if (2 : Nat) = 0 then
        ∃ k, ((([{ timesig := some ⟨3, 4, none⟩ }, {},
            { timesig := some ⟨3, 4, none⟩ }] : List BarE).getD 0 default).keysig
            = some k) ∧ k ≠ 0
      else
        active_keysig
            [{ timesig := some ⟨3, 4, none⟩ }, {}, { timesig := some ⟨3, 4, none⟩ }]
            (2 - 1) ≠
          active_keysig
            [{ timesig := some ⟨3, 4, none⟩ }, {}, { timesig := some ⟨3, 4, none⟩ }]
            2)) := by
  exact (changed_flags_semantics
    [{ timesig := some ⟨3, 4, none⟩ }, {}, { timesig := some ⟨3, 4, none⟩ }] 2
    (by decide)).1

/-! ### C9: one BarPart per declared part (musicxml.py, parse_measures) -/

/-- Python dict assignment d[k] = v on an association list: replace in
place if the key exists, else append (insertion order preserved, as for
CPython dicts). -/
def dict_set {κ α : Type} [DecidableEq κ] :
    List (κ × α) → κ → α → List (κ × α)
  | [], k, v => [(k, v)]
  | (k', v') :: tl, k, v =>
      if k' = k then (k, v) :: tl else (k', v') :: dict_set tl k v

/-- Python dict lookup d[k] on an association list (None for KeyError). -/
def dict_get {κ α : Type} [DecidableEq κ] : List (κ × α) → κ → Option α
  | [], _ => none
  | (k', v') :: tl, k => if k' = k then some v' else dict_get tl k

/-- One measure's `bar.bar_parts` keys as built by parse_measure_part:
the i-th <part> child of the measure element is assigned (positionally,
ignoring its own id attribute) to the i-th declared part id.  `k` is the
number of <part> children. -/
def barpart_keys (partIds : List String) (k : Nat) : List (String × Unit) :=
  (List.range k).foldl (fun acc i => dict_set acc (partIds.getD i "") ()) []

/-- MusicXMLReader.parse_measures / parse_measure_part (musicxml.py lines
272-300), abstracted to the bar_parts bookkeeping the claim is about:
each measure element is given by the number of its <part> children (their
musical content is irrelevant to which BarParts exist), and
`parts[part_idx]` raises IndexError when a measure has more <part>
children than the part-list declared.  Returns, per bar, the bar_parts
association (insertion order). -/
def parse_measures_model (partIds : List String) :
    List Nat → Except String (List (List (String × Unit)))
  | [] => .ok []
  | k :: tl =>
      if k ≤ partIds.length then
        match parse_measures_model partIds tl with
        | .ok rest => .ok (barpart_keys partIds k :: rest)
        | .error e => .error e
      else
        .error "IndexError: measure has more <part> children than declared parts"

/-- Counterexample to claim C9: with two declared parts P1 and P2 and a
single measure that contains only one <part> child, the reader returns a
score whose only bar has a BarPart for P1 but none for P2 — the claimed
invariant ("no bar is missing a BarPart for a known part id") fails. -/
theorem barpart_invariant_counterexample :
    parse_measures_model ["P1", "P2"] [1] = .ok [[("P1", ())]] ∧
    ("P2" ∉ ([("P1", ())] : List (String × Unit)).map Prod.fst) := by
  constructor
  · rfl
  · decide

theorem dict_set_fresh_append {α : Type} (l : List (String × α)) (k : String)
    (v : α) (h : k ∉ l.map Prod.fst) :
    dict_set l k v = l ++ [(k, v)] := by
  induction l with
  | nil => rfl
  | cons x tl ih =>
      obtain ⟨k', v'⟩ := x
      simp only [List.map_cons, List.mem_cons] at h
      push_neg at h
      simp only [dict_set, if_neg (Ne.symm h.1)]
      rw [ih h.2]
      simp

theorem barpart_keys_eq_take (partIds : List String) (k : Nat)
    (hnd : partIds.Nodup) (hk : k ≤ partIds.length) :
    (barpart_keys partIds k).map Prod.fst = partIds.take k := by
  induction k with
  | zero => simp [barpart_keys]
  | succ n ih =>
      have hn : n ≤ partIds.length := Nat.le_of_succ_le hk
      have hstep : barpart_keys partIds (n + 1) =
          dict_set (barpart_keys partIds n) (partIds.getD n "") () := by
        simp [barpart_keys, List.range_succ]
      have hlt : n < partIds.length := Nat.lt_of_succ_le hk
      have hget : partIds.getD n "" = partIds[n] := by
        simp [List.getD_eq_getElem?_getD, List.getElem?_eq_getElem hlt]
      have htake : partIds.take (n + 1) = partIds.take n ++ [partIds[n]] := by
        rw [List.take_succ]
        simp [List.getElem?_eq_getElem hlt]
      have hndtake : (partIds.take (n + 1)).Nodup :=
        (List.take_sublist _ _).nodup hnd
      have hnotmem : partIds[n] ∉ partIds.take n := by
        rw [htake] at hndtake
        have := List.disjoint_of_nodup_append hndtake
        intro hmem
        exact this hmem (by simp)
      have hmem : partIds.getD n "" ∉ (barpart_keys partIds n).map Prod.fst := by
        rw [ih hn, hget]
        exact hnotmem
      rw [hstep, dict_set_fresh_append _ _ _ hmem]
      rw [List.map_append, ih hn, htake, hget]
      simp

/-- Claim C9, amended: in every score the reader returns, each bar's
bar_parts keys are exactly a prefix of the declared part-id list (the
k-th <part> child of the measure is assigned, positionally, to the k-th
declared part id) — so no bar ever holds a BarPart for an unknown part
id, but a bar whose measure element has fewer <part> children than the
part list declares is missing the BarParts of the trailing declared
parts. -/
theorem barpart_keys_form_decl_list_prefix (partIds : List String)
    (measures : List Nat) (out : List (List (String × Unit)))
    (hnd : partIds.Nodup)
    (h : parse_measures_model partIds measures = .ok out) :
    ∀ bp ∈ out, ∃ k, k ≤ partIds.length ∧
      bp.map Prod.fst = partIds.take k := by
  induction measures generalizing out with
  | nil =>
      simp only [parse_measures_model] at h
      cases h
      simp
  | cons m tl ih =>
      simp only [parse_measures_model] at h
      by_cases hm : m ≤ partIds.length
      · rw [if_pos hm] at h
        cases htl : parse_measures_model partIds tl with
        | error e => rw [htl] at h; exact absurd h (by simp)
        | ok rest =>
            rw [htl] at h
            simp only [Except.ok.injEq] at h
            subst h
            intro bp hbp
            rcases List.mem_cons.mp hbp with hh | hh
            · subst hh
              exact ⟨m, hm, barpart_keys_eq_take partIds m hnd hm⟩
            · exact ih rest htl bp hh
      · rw [if_neg hm] at h
        exact absurd h (by simp)

/-- Witness for C9 (amended): two declared parts, two measures with 2 and
1 <part> children respectively; the second bar's keys are a strict prefix
of the declared list. -/
theorem barpart_keys_form_decl_list_prefix_witness :
    ∃ k, k ≤ (["P1", "P2"] : List String).length ∧
      ([("P1", ())] : List (String × Unit)).map Prod.fst =
        (["P1", "P2"] : List String).take k := by
  exact barpart_keys_form_decl_list_prefix ["P1", "P2"] [2, 1]
    [[("P1", ()), ("P2", ())], [("P1", ())]] (by decide) rfl
    [("P1", ())] (by decide)

/-! ### C4: beam processing (musicxml.py, MusicXMLReader.process_beams) -/

/-- A child of a Beam: either a nested Beam (by arena index) or a
BeamHook leaf (score.py classes Beam and BeamHook). -/
inductive BeamChildE where
  | beamRef (idx : Nat)
  | hook (eventId : String) (isForward : Bool)
deriving DecidableEq, Repr

/-- A Beam record: member event ids plus ordered children.  Beam objects
are aliased from the open-beams table and from parents' children lists in
the source; the model keeps them in an arena indexed by creation order. -/
structure BeamRecE where
  events : List String := []
  children : List BeamChildE := []
deriving DecidableEq, Repr

/-- The state process_beams threads through one beam marker: the arena of
Beam objects, part_open_beams for the current part (beam number → arena
index, a dict), the owning sequence's root beam list (sequence.beams),
and the pending_ends list of the current event. -/
structure BeamStepState where
  arena : List BeamRecE := []
  openBeams : List (Nat × Nat) := []
  seqBeams : List Nat := []
  pendingEnds : List Nat := []
deriving DecidableEq, Repr

instance : Inhabited BeamRecE := ⟨{}⟩

/-- One iteration of the `for beam_number, beam_type in beam_data` loop of
MusicXMLReader.process_beams (musicxml.py lines 814-854).  Note that for
"begin" the new Beam is stored into part_open_beams *before* the nesting
check, and that "continue"/"end" silently ignore a missing open beam
while "begin" (number>1) and the hooks raise NotationDataError. -/
def process_beam_marker (st : BeamStepState) (eventId : String)
    (number : Nat) (btype : String) : Except String BeamStepState :=
  if btype = "begin" then
    let newIdx := st.arena.length
    let arena₁ := st.arena ++ [{ events := [eventId], children := [] }]
    let open₁ := dict_set st.openBeams number newIdx
    if number = 1 then
      .ok { st with arena := arena₁, openBeams := open₁,
                    seqBeams := st.seqBeams ++ [newIdx] }
    else
      match dict_get open₁ (number - 1) with
      | none => .error "NotationDataError: <beam> outside of enclosing <beam>"
      | some parentIdx =>
          let parentRec := arena₁.getD parentIdx default
          .ok { st with
                arena := arena₁.set parentIdx
                  { parentRec with
                    children := parentRec.children ++ [.beamRef newIdx] },
                openBeams := open₁ }
  else if btype = "continue" then
    match dict_get st.openBeams number with
    | none => .ok st
    | some i =>
        let r := st.arena.getD i default
        .ok { st with
              arena := st.arena.set i { r with events := r.events ++ [eventId] } }
  else if btype = "end" then
    match dict_get st.openBeams number with
    | none => .ok st
    | some i =>
        let r := st.arena.getD i default
        .ok { st with
              arena := st.arena.set i { r with events := r.events ++ [eventId] },
              pendingEnds := st.pendingEnds ++ [number] }
  else if btype = "forward hook" ∨ btype = "backward hook" then
    match dict_get st.openBeams (number - 1) with
    | none => .error "NotationDataError: <beam> outside of enclosing <beam>"
    | some parentIdx =>
        let r := st.arena.getD parentIdx default
        .ok { st with
              arena := st.arena.set parentIdx
                { r with
                  children := r.children ++ [.hook eventId (btype = "forward hook")] } }
  else .ok st

theorem dict_get_set_ne {κ α : Type} [DecidableEq κ] (d : List (κ × α))
    (k k' : κ) (v : α) (h : k' ≠ k) :
    dict_get (dict_set d k v) k' = dict_get d k' := by
  induction d with
  | nil => simp [dict_set, dict_get, Ne.symm h]
  | cons x tl ih =>
      obtain ⟨k'', v''⟩ := x
      by_cases hk : k'' = k
      · subst hk
        simp only [dict_set, if_pos rfl]
        simp [dict_get, Ne.symm h]
      · simp only [dict_set, if_neg hk]
        by_cases hk2 : k'' = k'
        · simp [dict_get, hk2]
        · simp [dict_get, hk2, ih]

/-- The Beam() freshly constructed for a "begin" marker, holding just the
current event. -/
def new_beam (e : String) : BeamRecE :=
  { events := [e], children := [] }

/-- Claim C4: during end-of-measure beam processing a "begin" marker at
number 1 always opens a new beam appended to the sequence's root beam
list; a "begin" at number N>1 with no open beam at N−1 for the part
raises NotationDataError; and a "begin" at N>1 with an open beam at N−1
nests the new beam as a child of that parent beam. -/
theorem beam_begin_marker_semantics (st : BeamStepState) (e : String)
    (n : Nat) :
    (process_beam_marker st e 1 "begin" =
       .ok { st with
               arena := st.arena ++ [new_beam e],
               openBeams := dict_set st.openBeams 1 st.arena.length,
               seqBeams := st.seqBeams ++ [st.arena.length] }) ∧
    (1 < n → dict_get st.openBeams (n - 1) = none →
       process_beam_marker st e n "begin" =
         .error "NotationDataError: <beam> outside of enclosing <beam>") ∧
    (∀ p, 1 < n → dict_get st.openBeams (n - 1) = some p →
       p < st.arena.length →
       process_beam_marker st e n "begin" =
         .ok { st with
               arena := (st.arena ++ [new_beam e]).set p
                 { st.arena.getD p default with
                   children := (st.arena.getD p default).children ++
                     [.beamRef st.arena.length] },
               openBeams := dict_set st.openBeams n st.arena.length }) := by
  have hmain : ∀ m : Nat, 1 < m → m - 1 ≠ m := by
    intro m hm
    omega
  refine ⟨?_, ?_, ?_⟩
  · simp [process_beam_marker, new_beam]
  · intro hn hnone
    have hne : n ≠ 1 := by omega
    have hx := dict_get_set_ne st.openBeams n (n - 1) st.arena.length
      (hmain n hn)
    simp [process_beam_marker, hne, hx, hnone, new_beam]
  · intro p hn hsome hp
    have hne : n ≠ 1 := by omega
    have hx := dict_get_set_ne st.openBeams n (n - 1) st.arena.length
      (hmain n hn)
    have hget :
        (st.arena ++ [({ events := [e], children := [] } : BeamRecE)])[p]? =
          st.arena[p]? := by
      rw [List.getElem?_append]
      simp [hp]
    simp [process_beam_marker, hne, hx, hsome, hget, new_beam]

/-- Witness for C4 at concrete inputs: a state with an open beam number 1
(arena index 0); a "begin" at number 2 nests under it, while the same
marker against an empty open-beams table raises the data error. -/
theorem beam_begin_marker_semantics_witness :
    (process_beam_marker
        { arena := [{ events := ["ev1"], children := [] }],
          openBeams := [(1, 0)], seqBeams := [0], pendingEnds := [] }
        "ev1" 2 "begin" =
      .ok { arena := [{ events := ["ev1"],
                        children := [BeamChildE.beamRef 1] },
                      { events := ["ev1"], children := [] }],
            openBeams := [(1, 0), (2, 1)], seqBeams := [0],
            pendingEnds := [] }) ∧
    (process_beam_marker {} "ev1" 2 "begin" =
      .error "NotationDataError: <beam> outside of enclosing <beam>") := by
  constructor
  · exact (beam_begin_marker_semantics
      { arena := [{ events := ["ev1"], children := [] }],
        openBeams := [(1, 0)], seqBeams := [0], pendingEnds := [] }
      "ev1" 2).2.2 0 (by decide) rfl (by decide)
  · exact (beam_begin_marker_semantics {} "ev1" 2).2.1 (by decide) rfl

/-! ### C10: the missing Slur.INCOMPLETE_TYPE_* attributes -/

/-- Class-attribute lookup on score.py's Slur class, which defines exactly
the class attributes SIDE_UP = 1 and SIDE_DOWN = 2 (lines 367-370); any
other class-attribute access raises AttributeError. -/
def slur_class_getattr (name : String) : Except PyError Int :=
  if name = "SIDE_UP" then .ok 1
  else if name = "SIDE_DOWN" then .ok 2
  else .error .attributeError

/-- Module initialization of mnx.py, restricted to its reads of Slur class
attributes: SLUR_SIDES_FOR_EXPORT (lines 33-36) reads SIDE_UP/SIDE_DOWN,
then SLUR_INCOMPLETE_LOCATIONS_FOR_EXPORT (lines 50-53) reads
INCOMPLETE_TYPE_INCOMING/INCOMPLETE_TYPE_OUTGOING.  (The module's other
tables read Note.ACCIDENTAL_*, Ottava.TYPE_* and Ending.TYPE_*, all of
which exist.) -/
def mnx_module_init : Except PyError Unit := do
  let _ ← slur_class_getattr "SIDE_UP"
  let _ ← slur_class_getattr "SIDE_DOWN"
  let _ ← slur_class_getattr "INCOMPLETE_TYPE_INCOMING"
  let _ ← slur_class_getattr "INCOMPLETE_TYPE_OUTGOING"
  pure ()

/-- The source's `re.match(r'-\d', ...)` on the start marker's default-x
attribute (musicxml.py line 786); the attribute map lookup defaults to
the empty string. -/
def default_x_is_negative : Option String → Bool
  | none => false
  | some s =>
      match s.data with
      | '-' :: c :: _ => c.isDigit
      | _ => false

/-- The same-event ("incomplete slur") branch of MusicXMLReader.add_slur
(musicxml.py lines 779-790): choose Slur.INCOMPLETE_TYPE_INCOMING or
Slur.INCOMPLETE_TYPE_OUTGOING depending on the default-x heuristic — both
class-attribute reads. -/
def add_slur_incomplete_type (defaultX : Option String) : Except PyError Int :=
  if default_x_is_negative defaultX then
    slur_class_getattr "INCOMPLETE_TYPE_INCOMING"
  else
    slur_class_getattr "INCOMPLETE_TYPE_OUTGOING"

/-- Claim C10: the Slur class defines no INCOMPLETE_TYPE_INCOMING or
INCOMPLETE_TYPE_OUTGOING attribute, yet the MNX/JSON emitter's
module-level incomplete-slur table and the reader's same-event slur
classification read them: so initializing the emitter module fails with
AttributeError, and the same-event-slur branch of add_slur fails with
AttributeError for every default-x value, instead of producing an
incoming/outgoing slur location. -/
theorem slur_incomplete_attrs_missing :
    slur_class_getattr "INCOMPLETE_TYPE_INCOMING" = .error .attributeError ∧
    slur_class_getattr "INCOMPLETE_TYPE_OUTGOING" = .error .attributeError ∧
    mnx_module_init = .error .attributeError ∧
    ∀ dx, add_slur_incomplete_type dx = .error .attributeError := by
  refine ⟨rfl, rfl, rfl, ?_⟩
  intro dx
  unfold add_slur_incomplete_type
  cases default_x_is_negative dx <;> rfl

/-! ### C6: octave-shift finalization calls a method Score does not have -/

/-- Part, from score.py class Part. -/
structure PartE where
  part_id : String
  name : Option String := none
  transpose : Int := 0
deriving DecidableEq, Repr

/-- PositionedClef, from score.py (clef sign, staff position, bar-relative
rhythmic position). -/
structure PositionedClefE where
  sign : Option String := none
  staff_position : Int := 0
  position : Rat := 0
deriving DecidableEq, Repr

/-- Sequence, from score.py (beams omitted here; C4 models them). -/
structure SequenceE where
  sequence_id : String := ""
  items : List SeqItemE := []

/-- BarPart, from score.py. -/
structure BarPartE where
  sequences : List SequenceE := []
  clefs : List PositionedClefE := []

/-- A Bar as the reader builds it: the global attributes (BarE, see C5)
plus the bar_parts dict mapping part ids to BarParts. -/
structure ScoreBarE where
  info : BarE := {}
  bar_parts : List (String × BarPartE) := []

/-- Score, from score.py. -/
structure ScoreE where
  parts : List PartE := []
  bars : List ScoreBarE := []

/-- Object identity of an EventItem (Note oid, or the oid given to a Rest
object). -/
def event_item_oid : EventItemE → Nat
  | .note n => n.oid
  | .rest o => o

/-- `event_item == note` scan inside Score.get_event_containing_note
(identity comparison over event.event_items). -/
def event_contains_oid (e : EventE) (oid : Nat) : Bool :=
  e.event_items.any fun it => event_item_oid it = oid

/-- SequenceContent.iter_events (score.py lines 158-164) consumed lazily
by Score.get_event_containing_note: top-level Events are yielded, Tuplets
recursed into; a GraceNoteGroup or SequenceDirection item has no
iter_events method, so reaching one raises AttributeError. -/
def find_event_in_items : List SeqItemE → Nat → Except PyError (Option EventE)
  | [], _ => .ok none
  | .event e :: tl, oid =>
      if event_contains_oid e oid then .ok (some e)
      else find_event_in_items tl oid
  | .tuplet _ its :: tl, oid =>
      match find_event_in_items its oid with
      | .error err => .error err
      | .ok (some e) => .ok (some e)
      | .ok none => find_event_in_items tl oid
  | .graceGroup _ :: _, _ => .error .attributeError
  | .ottava _ _ :: _, _ => .error .attributeError

def find_event_in_seqs : List SequenceE → Nat → Except PyError (Option EventE)
  | [], _ => .ok none
  | sq :: tl, oid =>
      match find_event_in_items sq.items oid with
      | .error err => .error err
      | .ok (some e) => .ok (some e)
      | .ok none => find_event_in_seqs tl oid

def find_event_in_barparts :
    List (String × BarPartE) → Nat → Except PyError (Option EventE)
  | [], _ => .ok none
  | (_, bp) :: tl, oid =>
      match find_event_in_seqs bp.sequences oid with
      | .error err => .error err
      | .ok (some e) => .ok (some e)
      | .ok none => find_event_in_barparts tl oid

def find_event_in_bars : List ScoreBarE → Nat → Except PyError (Option EventE)
  | [], _ => .ok none
  | b :: tl, oid =>
      match find_event_in_barparts b.bar_parts oid with
      | .error err => .error err
      | .ok (some e) => .ok (some e)
      | .ok none => find_event_in_bars tl oid

/-- Score.get_event_containing_note, score.py lines 52-60 (the note is
identified by its object id). -/
def get_event_containing_note (s : ScoreE) (oid : Nat) :
    Except PyError (Option EventE) :=
  find_event_in_bars s.bars oid

/-- The iter_events walk of Score.get_event_measure_rhythmic_position
within one sequence: accumulate durations of flattened events until the
target event (by identity, here event_id) is reached; same AttributeError
behaviour for grace groups and directions as find_event_in_items.
Returns (found position, accumulated position). -/
def scan_seq_pos : List SeqItemE → String → Rat →
    Except PyError (Option Rat × Rat)
  | [], _, acc => .ok (none, acc)
  | .event e :: tl, eid, acc =>
      if e.event_id = eid then .ok (some acc, acc)
      else scan_seq_pos tl eid (acc + e.duration.frac)
  | .tuplet _ its :: tl, eid, acc =>
      match scan_seq_pos its eid acc with
      | .error err => .error err
      | .ok (some r, a) => .ok (some r, a)
      | .ok (none, a) => scan_seq_pos tl eid a
  | .graceGroup _ :: _, _, _ => .error .attributeError
  | .ottava _ _ :: _, _, _ => .error .attributeError

def pos_in_seqs : List SequenceE → String → Except PyError (Option Rat)
  | [], _ => .ok none
  | sq :: tl, eid =>
      match scan_seq_pos sq.items eid 0 with
      | .error err => .error err
      | .ok (some r, _) => .ok (some r)
      | .ok (none, _) => pos_in_seqs tl eid

def pos_in_barparts : List (String × BarPartE) → String →
    Except PyError (Option Rat)
  | [], _ => .ok none
  | (_, bp) :: tl, eid =>
      match pos_in_seqs bp.sequences eid with
      | .error err => .error err
      | .ok (some r) => .ok (some r)
      | .ok none => pos_in_barparts tl eid

def pos_in_bars : List ScoreBarE → String → Nat → Except PyError MRPosResult
  | [], _, _ => .ok .emptyStr
  | b :: tl, eid, i =>
      match pos_in_barparts b.bar_parts eid with
      | .error err => .error err
      | .ok (some r) => .ok (.found (i + 1) r)
      | .ok none => pos_in_bars tl eid (i + 1)

/-- Score.get_event_measure_rhythmic_position, score.py lines 31-50
(returns the empty string, not None, when the event is absent). -/
def get_event_measure_rhythmic_position (s : ScoreE) (eid : String) :
    Except PyError MRPosResult :=
  pos_in_bars s.bars eid 0

mutual

/-- Whether a top-level SequenceItem contains the event item with the
given object id (used for the insertion point of the Ottava marker). -/
def item_contains_oid : SeqItemE → Nat → Bool
  | .event e, oid => event_contains_oid e oid
  | .tuplet _ its, oid => items_contain_oid its oid
  | .graceGroup evs, oid => evs.any fun e => event_contains_oid e oid
  | .ottava _ _, _ => false

def items_contain_oid : List SeqItemE → Nat → Bool
  | [], _ => false
  | it :: tl, oid => item_contains_oid it oid || items_contain_oid tl oid

end

/-- Insert a new SequenceItem immediately before the first top-level item
containing the given event item (no-op when absent). -/
def insert_before_top_item : List SeqItemE → Nat → SeqItemE → List SeqItemE
  | [], _, _ => []
  | it :: tl, oid, newIt =>
      if item_contains_oid it oid then newIt :: it :: tl
      else it :: insert_before_top_item tl oid newIt

/-- Apply the Ottava insertion across the score (only the sequence that
contains the member item changes). -/
def score_insert_ottava (score : ScoreE) (oid : Nat) (newIt : SeqItemE) :
    ScoreE :=
  { score with
    bars := score.bars.map fun b =>
      { b with
        bar_parts := b.bar_parts.map fun kv =>
          (kv.1,
            { kv.2 with
              sequences := kv.2.sequences.map fun sq =>
                { sq with items := insert_before_top_item sq.items oid newIt } }) } }

/-- The attribute names class Score actually defines (score.py lines
26-60): the two methods besides __init__'s parts/bars fields. -/
def score_method_names : List String :=
  ["get_event_measure_rhythmic_position", "get_event_containing_note"]

/-- MusicXMLReader.add_octave_shift, musicxml.py lines 861-869.  The two
get_event_containing_note calls run first; then the Ottava constructor's
arguments are evaluated: start_event.parent (AttributeError when
start_event is None), and end_pos = self.score.get_event_measure_location(...)
— an attribute lookup on Score for a name Score does not define.  The
branch behind a successful lookup is unreachable; it is modelled as the
insertion the spec describes, using the similarly named method Score does
define (get_event_measure_rhythmic_position). -/
def add_octave_shift (score : ScoreE) (shift_type : Nat)
    (note_list : List Nat) : Except PyError ScoreE :=
  match note_list.head?, note_list.getLast? with
  | some first, some lastOid =>
      match get_event_containing_note score first with
      | .error err => .error err
      | .ok startEv? =>
          match get_event_containing_note score lastOid with
          | .error err => .error err
          | .ok endEv? =>
              match startEv? with
              | none => .error .attributeError
              | some _startEv =>
                  if score_method_names.contains "get_event_measure_location" then
                    match get_event_measure_rhythmic_position score
                        (match endEv? with
                         | some e => e.event_id
                         | none => "") with
                    | .error err => .error err
                    | .ok pos =>
                        .ok (score_insert_ottava score first
                          (.ottava shift_type pos))
                  else .error .attributeError
  | _, _ => .error .indexError

theorem find_event_in_items_error_attr :
    ∀ (l : List SeqItemE) (oid : Nat) (err : PyError),
      find_event_in_items l oid = .error err → err = .attributeError
  | [], _, _ => by simp [find_event_in_items]
  | .event e :: tl, oid, err => by
      simp only [find_event_in_items]
      by_cases h : event_contains_oid e oid
      · simp [h]
      · simp only [h, if_false, Bool.false_eq_true]
        exact find_event_in_items_error_attr tl oid err
  | .tuplet r its :: tl, oid, err => by
      simp only [find_event_in_items]
      cases hin : find_event_in_items its oid with
      | error e' =>
          intro h
          cases h
          exact find_event_in_items_error_attr its oid err hin
      | ok v =>
          cases v with
          | some e' => intro h; cases h
          | none => exact find_event_in_items_error_attr tl oid err
  | .graceGroup _ :: _, _, _ => by
      simp only [find_event_in_items]
      intro h
      cases h
      rfl
  | .ottava _ _ :: _, _, _ => by
      simp only [find_event_in_items]
      intro h
      cases h
      rfl

theorem find_event_in_seqs_error_attr :
    ∀ (l : List SequenceE) (oid : Nat) (err : PyError),
      find_event_in_seqs l oid = .error err → err = .attributeError
  | [], _, _ => by simp [find_event_in_seqs]
  | sq :: tl, oid, err => by
      simp only [find_event_in_seqs]
      cases hin : find_event_in_items sq.items oid with
      | error e' =>
          intro h
          cases h
          exact find_event_in_items_error_attr sq.items oid err hin
      | ok v =>
          cases v with
          | some e' => intro h; cases h
          | none => exact find_event_in_seqs_error_attr tl oid err

theorem find_event_in_barparts_error_attr :
    ∀ (l : List (String × BarPartE)) (oid : Nat) (err : PyError),
      find_event_in_barparts l oid = .error err → err = .attributeError
  | [], _, _ => by simp [find_event_in_barparts]
  | (k, bp) :: tl, oid, err => by
      simp only [find_event_in_barparts]
      cases hin : find_event_in_seqs bp.sequences oid with
      | error e' =>
          intro h
          cases h
          exact find_event_in_seqs_error_attr bp.sequences oid err hin
      | ok v =>
          cases v with
          | some e' => intro h; cases h
          | none => exact find_event_in_barparts_error_attr tl oid err

theorem find_event_in_bars_error_attr :
    ∀ (l : List ScoreBarE) (oid : Nat) (err : PyError),
      find_event_in_bars l oid = .error err → err = .attributeError
  | [], _, _ => by simp [find_event_in_bars]
  | b :: tl, oid, err => by
      simp only [find_event_in_bars]
      cases hin : find_event_in_barparts b.bar_parts oid with
      | error e' =>
          intro h
          cases h
          exact find_event_in_barparts_error_attr b.bar_parts oid err hin
      | ok v =>
          cases v with
          | some e' => intro h; cases h
          | none => exact find_event_in_bars_error_attr tl oid err

/-- Claim C6 (what the code actually does): Score defines no method named
get_event_measure_location — the near name
get_event_measure_rhythmic_position is what exists — so for every
completed octave shift with a non-empty member list, add_octave_shift
raises AttributeError (either at the missing-method lookup, at
None.parent, or while iterating a sequence containing a grace group or
direction) and never inserts an Ottava marker. -/
theorem add_octave_shift_raises_attribute_error :
    ("get_event_measure_location" ∉ score_method_names) ∧
    ("get_event_measure_rhythmic_position" ∈ score_method_names) ∧
    ∀ (score : ScoreE) (st first : Nat) (rest : List Nat),
      add_octave_shift score st (first :: rest) = .error .attributeError := by
  refine ⟨by decide, by decide, ?_⟩
  intro score st first rest
  have hhead : (first :: rest).head? = some first := rfl
  have hlast : ∃ l, (first :: rest).getLast? = some l :=
    ⟨(first :: rest).getLast (by simp), List.getLast?_eq_getLast _ _⟩
  obtain ⟨lastOid, hlast⟩ := hlast
  simp only [add_octave_shift, hhead, hlast]
  cases h1 : get_event_containing_note score first with
  | error err =>
      rw [find_event_in_bars_error_attr score.bars first err h1]
  | ok startEv? =>
      cases h2 : get_event_containing_note score lastOid with
      | error err =>
          rw [find_event_in_bars_error_attr score.bars lastOid err h2]
      | ok endEv? =>
          cases startEv? with
          | none => rfl
          | some ev =>
              have hc : score_method_names.contains
                  "get_event_measure_location" = false := by decide
              simp only [hc, Bool.false_eq_true, if_false]

/-! ### MNX/JSON serialization (mnx.py get_filedata's json.dumps call)

json.dumps(..., indent=2, sort_keys=True) walks each object's items in
sorted key order and renders values recursively, raising TypeError at the
first value that is not JSON-serializable.  The exact text layout is a
library internal (out of scope); what the model preserves is the
structure-determined content, the key sorting, and the error behaviour. -/

/-- The JSON-level values the emitter produces.  `pyObj` stands for a
Python object json.dumps cannot serialize (it raises TypeError there). -/
inductive Json where
  | null
  | str (s : String)
  | num (n : Int)
  | bool (b : Bool)
  | arr (xs : List Json)
  | obj (kvs : List (String × Json))
  | pyObj (tag : String)

/-- Quoted JSON string (escaping abstracted; no key or value the emitter
produces needs escapes). -/
def jstr (s : String) : String := "\"" ++ s ++ "\""

def join_comma : List String → String
  | [] => ""
  | [s] => s
  | s :: tl => s ++ ", " ++ join_comma tl

/-- Key order used by sort_keys=True. -/
def entry_le (a b : String × Except PyError String) : Prop := a.1 ≤ b.1

instance : DecidableRel entry_le := fun a b =>
  inferInstanceAs (Decidable (a.1 ≤ b.1))

instance : IsTotal (String × Except PyError String) entry_le :=
  ⟨fun a b => le_total a.1 b.1⟩

instance : IsTrans (String × Except PyError String) entry_le :=
  ⟨fun _ _ _ h1 h2 => le_trans h1 h2⟩

def sort_entries (l : List (String × Except PyError String)) :
    List (String × Except PyError String) :=
  l.insertionSort entry_le

/-- Render the (already sorted) entries of one object, surfacing the
first error in sorted order exactly as json.dumps does. -/
def collect_entries : List (String × Except PyError String) →
    Except PyError (List String)
  | [] => .ok []
  | (_, .error e) :: _ => .error e
  | (k, .ok s) :: tl =>
      match collect_entries tl with
      | .error e => .error e
      | .ok r => .ok ((jstr k ++ ": " ++ s) :: r)

mutual

def serialize : Json → Except PyError String
  | .null => .ok "null"
  | .str s => .ok (jstr s)
  | .num n => .ok (toString n)
  | .bool b => .ok (if b then "true" else "false")
  | .pyObj _ => .error .typeError
  | .arr xs =>
      match serialize_list xs with
      | .error e => .error e
      | .ok ss => .ok ("[" ++ join_comma ss ++ "]")
  | .obj kvs =>
      match collect_entries (sort_entries (serialize_pairs kvs)) with
      | .error e => .error e
      | .ok es => .ok ("\x7b" ++ join_comma es ++ "\x7d")

def serialize_list : List Json → Except PyError (List String)
  | [] => .ok []
  | x :: xs =>
      match serialize x with
      | .error e => .error e
      | .ok s =>
          match serialize_list xs with
          | .error e => .error e
          | .ok ss => .ok (s :: ss)

def serialize_pairs : List (String × Json) →
    List (String × Except PyError String)
  | [] => []
  | (k, v) :: tl => (k, serialize v) :: serialize_pairs tl

end

/-! Equality of JSON documents up to the order in which object entries
were inserted — the only ordering freedom a CPython dict could ever
exhibit.  `jkp v w` holds when w is v with each object's entry list
permuted (keys kept with their values, values related recursively), and
v's objects have no duplicate keys. -/

mutual

def jkp : Json → Json → Prop
  | .null, w => w = .null
  | .str s, w => w = .str s
  | .num n, w => w = .num n
  | .bool b, w => w = .bool b
  | .pyObj t, w => w = .pyObj t
  | .arr xs, w => ∃ ys, w = .arr ys ∧ jkp_list xs ys
  | .obj kvs, w =>
      ∃ kvs' mid, w = .obj kvs' ∧ jkp_pairs kvs mid ∧ mid.Perm kvs' ∧
        (kvs.map Prod.fst).Nodup

def jkp_list : List Json → List Json → Prop
  | [], ys => ys = []
  | x :: xs, ys => ∃ y ys', ys = y :: ys' ∧ jkp x y ∧ jkp_list xs ys'

def jkp_pairs : List (String × Json) → List (String × Json) → Prop
  | [], ys => ys = []
  | (k, v) :: xs, ys =>
      ∃ v' ys', ys = (k, v') :: ys' ∧ jkp v v' ∧ jkp_pairs xs ys'

end

theorem serialize_pairs_eq_map (l : List (String × Json)) :
    serialize_pairs l = l.map fun kv => (kv.1, serialize kv.2) := by
  induction l with
  | nil => rfl
  | cons x tl ih =>
      obtain ⟨k, v⟩ := x
      simp [serialize_pairs, ih]

theorem jkp_pairs_keys (xs ys : List (String × Json)) (h : jkp_pairs xs ys) :
    ys.map Prod.fst = xs.map Prod.fst := by
  induction xs generalizing ys with
  | nil => simp only [jkp_pairs] at h; subst h; rfl
  | cons x tl ih =>
      obtain ⟨k, v⟩ := x
      simp only [jkp_pairs] at h
      obtain ⟨v', ys', hys, _, htl⟩ := h
      subst hys
      simp [ih ys' htl]

theorem sort_entries_eq_of_perm (l₁ l₂ : List (String × Except PyError String))
    (hperm : l₁.Perm l₂) (hnd : (l₁.map Prod.fst).Nodup) :
    sort_entries l₁ = sort_entries l₂ := by
  have hs₁ : List.Sorted entry_le (sort_entries l₁) :=
    List.sorted_insertionSort entry_le l₁
  have hs₂ : List.Sorted entry_le (sort_entries l₂) :=
    List.sorted_insertionSort entry_le l₂
  have hp₁ : (sort_entries l₁).Perm l₁ := List.perm_insertionSort entry_le l₁
  have hp₂ : (sort_entries l₂).Perm l₂ := List.perm_insertionSort entry_le l₂
  have hp : (sort_entries l₁).Perm (sort_entries l₂) :=
    (hp₁.trans hperm).trans hp₂.symm
  have hnd₁ : ((sort_entries l₁).map Prod.fst).Nodup :=
    ((hp₁.map Prod.fst).nodup_iff).mpr hnd
  have hnd₂ : ((sort_entries l₂).map Prod.fst).Nodup :=
    ((hp.map Prod.fst).nodup_iff).mp hnd₁
  have hstrict : ∀ (l : List (String × Except PyError String)),
      List.Sorted entry_le l → (l.map Prod.fst).Nodup →
      List.Pairwise (fun a b : String × Except PyError String => a.1 < b.1) l := by
    intro l hsort hnod
    have hne : List.Pairwise
        (fun a b : String × Except PyError String => a.1 ≠ b.1) l :=
      (List.pairwise_map.mp hnod)
    exact (hsort.and hne).imp fun hab => lt_of_le_of_ne hab.1 hab.2
  haveI : IsAntisymm (String × Except PyError String)
      (fun a b => a.1 < b.1) :=
    ⟨fun a b h1 h2 => absurd (lt_trans h1 h2) (lt_irrefl _)⟩
  exact List.eq_of_perm_of_sorted hp
    (hstrict _ hs₁ hnd₁) (hstrict _ hs₂ hnd₂)

mutual

theorem jkp_serialize : ∀ v w, jkp v w → serialize v = serialize w
  | .null, w, h => by rw [(by exact h : w = .null)]
  | .str s, w, h => by rw [(by exact h : w = .str s)]
  | .num n, w, h => by rw [(by exact h : w = .num n)]
  | .bool b, w, h => by rw [(by exact h : w = .bool b)]
  | .pyObj t, w, h => by rw [(by exact h : w = .pyObj t)]
  | .arr xs, w, h => by
      obtain ⟨ys, hw, hl⟩ := h
      subst hw
      simp only [serialize]
      rw [jkp_list_serialize xs ys hl]
  | .obj kvs, w, h => by
      obtain ⟨kvs', mid, hw, hpairs, hperm, hnd⟩ := h
      subst hw
      simp only [serialize]
      have h1 : serialize_pairs kvs = serialize_pairs mid :=
        jkp_pairs_serialize kvs mid hpairs
      have h2 : (serialize_pairs mid).Perm (serialize_pairs kvs') := by
        rw [serialize_pairs_eq_map, serialize_pairs_eq_map]
        exact hperm.map _
      have hkeys : (serialize_pairs kvs).map Prod.fst = kvs.map Prod.fst := by
        rw [serialize_pairs_eq_map]
        simp [Function.comp]
      have hnd' : ((serialize_pairs kvs).map Prod.fst).Nodup := by
        rw [hkeys]; exact hnd
      have hsort : sort_entries (serialize_pairs kvs) =
          sort_entries (serialize_pairs kvs') := by
        apply sort_entries_eq_of_perm
        · rw [h1]; exact h2
        · exact hnd'
      rw [hsort]

theorem jkp_list_serialize :
    ∀ xs ys, jkp_list xs ys → serialize_list xs = serialize_list ys
  | [], ys, h => by
      rw [(by exact h : ys = [])]
  | x :: xs, ys, h => by
      obtain ⟨y, ys', hys, hxy, htl⟩ := h
      subst hys
      simp only [serialize_list]
      rw [jkp_serialize x y hxy, jkp_list_serialize xs ys' htl]

theorem jkp_pairs_serialize :
    ∀ xs ys, jkp_pairs xs ys → serialize_pairs xs = serialize_pairs ys
  | [], ys, h => by
      rw [(by exact h : ys = [])]
  | (k, v) :: xs, ys, h => by
      obtain ⟨v', ys', hys, hv, htl⟩ := h
      subst hys
      simp only [serialize_pairs]
      rw [jkp_serialize v v' hv, jkp_pairs_serialize xs ys' htl]

end

mutual

/-- Recursively checked absence of duplicate keys (true of every object
the emitter builds: literal distinct keys, or dict_set updates). -/
def json_nodup_keys : Json → Bool
  | .null => true
  | .str _ => true
  | .num _ => true
  | .bool _ => true
  | .pyObj _ => true
  | .arr xs => json_nodup_keys_list xs
  | .obj kvs => decide ((kvs.map Prod.fst).Nodup) && json_nodup_keys_pairs kvs

def json_nodup_keys_list : List Json → Bool
  | [] => true
  | x :: xs => json_nodup_keys x && json_nodup_keys_list xs

def json_nodup_keys_pairs : List (String × Json) → Bool
  | [] => true
  | (_, v) :: tl => json_nodup_keys v && json_nodup_keys_pairs tl

end

mutual

theorem jkp_refl : ∀ v, json_nodup_keys v = true → jkp v v
  | .null, _ => rfl
  | .str _, _ => rfl
  | .num _, _ => rfl
  | .bool _, _ => rfl
  | .pyObj _, _ => rfl
  | .arr xs, h => by
      exact ⟨xs, rfl, jkp_list_refl xs (by simpa [json_nodup_keys] using h)⟩
  | .obj kvs, h => by
      simp only [json_nodup_keys, Bool.and_eq_true, decide_eq_true_eq] at h
      exact ⟨kvs, kvs, rfl, jkp_pairs_refl kvs h.2, List.Perm.refl kvs, h.1⟩

theorem jkp_list_refl : ∀ xs, json_nodup_keys_list xs = true → jkp_list xs xs
  | [], _ => rfl
  | x :: xs, h => by
      simp only [json_nodup_keys_list, Bool.and_eq_true] at h
      exact ⟨x, xs, rfl, jkp_refl x h.1, jkp_list_refl xs h.2⟩

theorem jkp_pairs_refl :
    ∀ kvs, json_nodup_keys_pairs kvs = true → jkp_pairs kvs kvs
  | [], _ => rfl
  | (k, v) :: tl, h => by
      simp only [json_nodup_keys_pairs, Bool.and_eq_true] at h
      exact ⟨v, tl, rfl, jkp_refl v h.1, jkp_pairs_refl tl h.2⟩

end

/-! ### MNX/JSON emitter (mnx.py, MNXWriter) -/

/-- NOTE_VALUE_BASES, mnx.py lines 5-23 (Fraction keys). -/
def note_value_bases (r : Rat) : Option String :=
  if r = 16 then some "duplexMaxima"
  else if r = 8 then some "maxima"
  else if r = 4 then some "longa"
  else if r = 2 then some "breve"
  else if r = 1 then some "whole"
  else if r = 1 / 2 then some "half"
  else if r = 1 / 4 then some "quarter"
  else if r = 1 / 8 then some "eighth"
  else if r = 1 / 16 then some "16th"
  else if r = 1 / 32 then some "32nd"
  else if r = 1 / 64 then some "64th"
  else if r = 1 / 128 then some "128th"
  else if r = 1 / 256 then some "256th"
  else if r = 1 / 512 then some "512th"
  else if r = 1 / 1024 then some "1024th"
  else if r = 1 / 2048 then some "2048th"
  else if r = 1 / 4096 then some "4096th"
  else none

/-- OCTAVE_SHIFT_TYPES_FOR_EXPORT, mnx.py lines 37-44. -/
def octave_shift_types_for_export (t : Nat) : Option String :=
  if t = 1 then some "1"
  else if t = 2 then some "-1"
  else if t = 3 then some "2"
  else if t = 4 then some "-2"
  else if t = 5 then some "3"
  else if t = 6 then some "-3"
  else none

/-- SLUR_SIDES_FOR_EXPORT, mnx.py lines 33-36 (codes from score.py's
Slur.SIDE_UP = 1, SIDE_DOWN = 2). -/
def slur_sides_for_export (side : Nat) : Option String :=
  if side = 1 then some "up"
  else if side = 2 then some "down"
  else none

/-- MNXWriter.encode_note_value, mnx.py lines 159-167: an unmapped
duration fraction raises ValueError. -/
def encode_note_value (d : RhythmicDuration) : Except PyError Json :=
  match note_value_bases d.frac with
  | none => .error .valueError
  | some b =>
      .ok (.obj ([("base", .str b)] ++
        (if d.dots ≠ 0 then [("dots", .num d.dots)] else [])))

/-- MNXWriter.encode_pitch, mnx.py lines 182-189 (alter omitted when 0). -/
def encode_pitch (p : Pitch) : Json :=
  .obj ([("step", .str p.step), ("octave", .num p.octave)] ++
    (if p.alter ≠ 0 then [("alter", .num p.alter)] else []))

/-- The attribute names a reader-produced Note instance carries: the
instance attributes set in Note.__init__ (score.py lines 350-356) plus
tie_end_note when parse_notations added it. -/
def note_attr_names (n : NoteE) : List String :=
  ["score", "note_id", "pitch", "rendered_acc", "ties", "is_referenced"] ++
  (if n.tie_end_note.isSome then ["tie_end_note"] else [])

/-- MNXWriter.encode_note, mnx.py lines 169-180.  encode_pitch(None) on a
pitchless Note reads None.step (AttributeError).  The `if note.tie:` test
reads an attribute no Note instance has — the class defines `ties` and
the reader sets `tie_end_note` — so the lookup raises AttributeError; the
ok branch (a falsy tie) is unreachable. -/
def encode_note (note : NoteE) : Except PyError Json :=
  match note.pitch with
  | none => .error .attributeError
  | some p =>
      let base := [("pitch", encode_pitch p)]
      let base := base ++
        (if note.is_referenced then [("id", .str note.note_id)] else [])
      let base := base ++
        (match note.rendered_acc with
         | some _ => [("accidentalDisplay", .obj [("show", .bool true)])]
         | none => [])
      if (note_attr_names note).contains "tie" then .ok (.obj base)
      else .error .attributeError

/-- Event.is_rest, score.py lines 246-250 (no Note item present). -/
def is_rest_event (e : EventE) : Bool :=
  e.event_items.all fun it =>
    match it with
    | .note _ => false
    | .rest _ => true

/-- The `list(self.encode_note(note) for note in event.event_items)` of
encode_event: every event item is passed to encode_note, a Rest object
among them having no pitch attribute. -/
def encode_items_as_notes : List EventItemE → Except PyError (List Json)
  | [] => .ok []
  | .rest _ :: _ => .error .attributeError
  | .note n :: tl =>
      match encode_note n with
      | .error e => .error e
      | .ok j =>
          match encode_items_as_notes tl with
          | .error e => .error e
          | .ok js => .ok (j :: js)

/-- MNXWriter.encode_slur, mnx.py lines 191-213.  slur.is_incomplete is an
attribute only add_slur sets; reading it on a Slur that never passed
through add_slur raises AttributeError.  The incomplete branch indexes
SLUR_INCOMPLETE_LOCATIONS_FOR_EXPORT, a module-level table whose
initialization itself raised AttributeError (mnx_module_init), so no
conversion reaches it.  A complete slur without end_event_id is skipped
(None). -/
def encode_slur (slur : SlurE) : Except PyError (Option Json) :=
  match slur.is_incomplete with
  | none => .error .attributeError
  | some true => .error .attributeError
  | some false =>
      match slur.end_event_id with
      | none => .ok none
      | some target =>
          let base := [("target", .str target)]
          let base := base ++
            (match slur.start_note with
             | some sn => [("startNote", .str sn)]
             | none => [])
          let base := base ++
            (match slur.end_note with
             | some en => [("endNote", .str en)]
             | none => [])
          match slur.side with
          | none => .ok (some (.obj base))
          | some sd =>
              match slur_sides_for_export sd with
              | none => .error .keyError
              | some s => .ok (some (.obj (base ++ [("side", .str s)])))

def encode_slur_list : List SlurE → Except PyError (List Json)
  | [] => .ok []
  | s :: tl =>
      match encode_slur s with
      | .error e => .error e
      | .ok v =>
          match encode_slur_list tl with
          | .error e => .error e
          | .ok vs =>
              .ok (match v with
                   | some j => j :: vs
                   | none => vs)

/-- The dict key each Marking class maps to in encode_event_markings
(mnx.py lines 215-240). -/
def marking_key : MarkingE → String
  | .accent => "accent"
  | .breath => "breath"
  | .softAccent => "softAccent"
  | .spiccato => "spiccato"
  | .staccatissimo => "staccatissimo"
  | .staccato => "staccato"
  | .stress => "stress"
  | .strongAccent => "strongAccent"
  | .tenuto => "tenuto"
  | .tremolo _ => "tremolo"
  | .unstress => "unstress"

def marking_value : MarkingE → Json
  | .tremolo marks => .obj [("marks", .num marks)]
  | _ => .obj []

/-- MNXWriter.encode_event_markings: repeated dict assignment, so a
duplicate marking overwrites its earlier entry. -/
def encode_event_markings (ms : List MarkingE) : Json :=
  .obj (ms.foldl (fun acc m => dict_set acc (marking_key m) (marking_value m)) [])

/-- MNXWriter.encode_event, mnx.py lines 143-157 (dict insertion order:
duration, id, rest|notes, slurs, markings; `if event.slurs:` and
`if event.markings:` are list truthiness tests). -/
def encode_event (e : EventE) : Except PyError Json :=
  match encode_note_value e.duration with
  | .error err => .error err
  | .ok dur =>
      let base := [("duration", dur)]
      let base := base ++
        (if e.is_referenced then [("id", .str e.event_id)] else [])
      let withItems : Except PyError (List (String × Json)) :=
        if is_rest_event e then .ok (base ++ [("rest", .obj [])])
        else
          match encode_items_as_notes e.event_items with
          | .error err => .error err
          | .ok notes => .ok (base ++ [("notes", .arr notes)])
      match withItems with
      | .error err => .error err
      | .ok base₂ =>
          let withSlurs : Except PyError (List (String × Json)) :=
            if e.slurs = [] then .ok base₂
            else
              match encode_slur_list e.slurs with
              | .error err => .error err
              | .ok ss => .ok (base₂ ++ [("slurs", .arr ss)])
          match withSlurs with
          | .error err => .error err
          | .ok base₃ =>
              .ok (.obj (base₃ ++
                (if e.markings = [] then []
                 else [("markings", encode_event_markings e.markings)])))

/-- The `end` value encode_ottava emits: ottava.end_pos is either a
MeasureRhythmicPosition object (not JSON-serializable — json.dumps will
raise TypeError) or the empty string get_event_measure_rhythmic_position
returns for a missing event. -/
def encode_mrpos : MRPosResult → Json
  | .found _ _ => .pyObj "MeasureRhythmicPosition"
  | .emptyStr => .str ""

mutual

/-- MNXWriter.encode_sequence_item, mnx.py lines 133-141 (all four
SequenceItem variants are covered). -/
def encode_sequence_item : SeqItemE → Except PyError Json
  | .event e => encode_event e
  | .tuplet ratio items =>
      match encode_seq_items items with
      | .error err => .error err
      | .ok con =>
          .ok (.obj [("inner", .obj [("duration", .str "TODO"),
                                     ("multiple", .num ratio.inner_numerator)]),
                     ("outer", .obj [("duration", .str "TODO"),
                                     ("multiple", .num ratio.outer_numerator)]),
                     ("content", .arr con)])
  | .graceGroup evs =>
      match encode_events_list evs with
      | .error err => .error err
      | .ok con => .ok (.obj [("content", .arr con), ("type", .str "grace")])
  | .ottava shift endPos =>
      match octave_shift_types_for_export shift with
      | none => .error .keyError
      | some v =>
          .ok (.obj [("end", encode_mrpos endPos), ("type", .str "ottava"),
                     ("value", .str v)])

def encode_seq_items : List SeqItemE → Except PyError (List Json)
  | [] => .ok []
  | it :: tl =>
      match encode_sequence_item it with
      | .error err => .error err
      | .ok j =>
          match encode_seq_items tl with
          | .error err => .error err
          | .ok js => .ok (j :: js)

/-- MNXWriter.encode_grace_note_group's member encoding (encode_event on
each grace Event). -/
def encode_events_list : List EventE → Except PyError (List Json)
  | [] => .ok []
  | e :: tl =>
      match encode_event e with
      | .error err => .error err
      | .ok j =>
          match encode_events_list tl with
          | .error err => .error err
          | .ok js => .ok (j :: js)

end

/-- MNXWriter.encode_rhythmic_position, mnx.py lines 287-290. -/
def encode_rhythmic_position (r : Rat) : Json :=
  .obj [("fraction", .arr [.num r.num, .num (r.den : Int)])]

/-- MNXWriter.encode_positioned_clef / encode_clef, mnx.py lines 273-285
(position omitted when its numerator is 0; a None clef sign becomes JSON
null). -/
def encode_positioned_clef (pc : PositionedClefE) : Json :=
  .obj ([("clef", .obj [("staffPosition", .num pc.staff_position),
                        ("sign", match pc.sign with
                                 | some s => .str s
                                 | none => .null)])] ++
    (if pc.position.num ≠ 0 then [("position", encode_rhythmic_position pc.position)]
     else []))

/-- MNXWriter.encode_sequence, mnx.py lines 128-131. -/
def encode_sequence (sq : SequenceE) : Except PyError Json :=
  match encode_seq_items sq.items with
  | .error err => .error err
  | .ok con => .ok (.obj [("content", .arr con)])

def encode_sequence_list : List SequenceE → Except PyError (List Json)
  | [] => .ok []
  | sq :: tl =>
      match encode_sequence sq with
      | .error err => .error err
      | .ok j =>
          match encode_sequence_list tl with
          | .error err => .error err
          | .ok js => .ok (j :: js)

/-- MNXWriter.encode_part_measure, mnx.py lines 119-126 (clefs key only
when the clef list is non-empty). -/
def encode_part_measure (bp : BarPartE) : Except PyError Json :=
  match encode_sequence_list bp.sequences with
  | .error err => .error err
  | .ok seqs =>
      .ok (.obj ([("sequences", .arr seqs)] ++
        (if bp.clefs = [] then []
         else [("clefs", .arr (bp.clefs.map encode_positioned_clef))])))

/-- The `bar.bar_parts[part.part_id]` per-bar lookup of
MNXWriter.encode_part (KeyError when a bar is missing the BarPart). -/
def encode_part_measures (bars : List ScoreBarE) (pid : String) :
    Except PyError (List Json) :=
  match bars with
  | [] => .ok []
  | b :: tl =>
      match dict_get b.bar_parts pid with
      | none => .error .keyError
      | some bp =>
          match encode_part_measure bp with
          | .error err => .error err
          | .ok j =>
              match encode_part_measures tl pid with
              | .error err => .error err
              | .ok js => .ok (j :: js)

/-- MNXWriter.encode_part, mnx.py lines 112-117. -/
def encode_part (bars : List ScoreBarE) (part : PartE) : Except PyError Json :=
  match encode_part_measures bars part.part_id with
  | .error err => .error err
  | .ok ms =>
      .ok (.obj ((match part.name with
                  | some nm => [("name", .str nm)]
                  | none => []) ++ [("measures", .arr ms)]))

def encode_part_list (bars : List ScoreBarE) :
    List PartE → Except PyError (List Json)
  | [] => .ok []
  | p :: tl =>
      match encode_part bars p with
      | .error err => .error err
      | .ok j =>
          match encode_part_list bars tl with
          | .error err => .error err
          | .ok js => .ok (j :: js)

/-- MNXWriter.encode_measure_global, mnx.py lines 83-107: the per-bar
global entry (time when present and changed, key when present and
changed, repeatStart, repeatEnd with times only above 2, ending
numbers). -/
def encode_measure_global (infos : List BarE) (idx : Nat) : Json :=
  let bar := infos.getD idx default
  .obj
    ((match bar.timesig with
      | some t =>
          if timesig_changed infos idx then
            [("time", .obj ([("count", .num t.count), ("unit", .num t.unit)] ++
              (match t.display with
               | some d => [("display", .str d)]
               | none => [])))]
          else []
      | none => []) ++
     (match bar.keysig with
      | some k =>
          if keysig_changed infos idx then [("key", .obj [("fifths", .num k)])]
          else []
      | none => []) ++
     (if bar.start_repeat then [("repeatStart", .obj [])] else []) ++
     (if bar.end_repeat ≠ 0 then
        [("repeatEnd", .obj (if 2 < bar.end_repeat then
            [("times", .num bar.end_repeat)]
          else []))]
      else []) ++
     (match bar.start_ending with
      | some ns => [("ending", .obj [("numbers", .arr (ns.map Json.num))])]
      | none => []))

/-- MNXWriter.encode_global, mnx.py lines 75-81. -/
def encode_global (infos : List BarE) : Json :=
  .obj [("measures", .arr ((List.range infos.length).map
    (encode_measure_global infos)))]

/-- The JSON document MNXWriter.get_filedata builds (mnx.py lines 67-73):
mnx header, global, parts. -/
def encode_score_json (s : ScoreE) : Except PyError Json :=
  match encode_part_list s.bars s.parts with
  | .error err => .error err
  | .ok parts =>
      .ok (.obj [("mnx", .obj [("version", .num 1)]),
                 ("global", encode_global (s.bars.map (fun b => b.info))),
                 ("parts", .arr parts)])

/-- MNXWriter.get_filedata / put_score: build the document, then
json.dumps(..., indent=2, sort_keys=True).strip().encode('utf8') — the
byte output, modelled as the serialized string. -/
def put_score (s : ScoreE) : Except PyError String :=
  match encode_score_json s with
  | .error err => .error err
  | .ok doc => serialize doc

/-! ### C8: determinism of the pipeline output -/

/-- Claim C8: the conversion pipeline is a pure function of the input
document — the reader's mutable state is freshly initialized per run (a
MusicXMLReader is constructed per get_score call) — so running it twice
yields the same result; and the only ordering freedom in the process,
the enumeration order of dictionary entries, cannot change the emitted
bytes, because json.dumps sorts keys: a run whose dictionaries were
enumerated in any other insertion order (jkp-related document) serializes
to byte-identical output.  Both successful byte outputs and raised errors
coincide across runs. -/
theorem put_score_deterministic (s : ScoreE) (v w : Json)
    (henc : encode_score_json s = .ok v) (hperm : jkp v w) :
    put_score s = put_score s ∧ put_score s = serialize w := by
  refine ⟨rfl, ?_⟩
  simp only [put_score, henc]
  exact jkp_serialize v w hperm

/-- A one-part, one-bar, one-rest score on which the emitter succeeds. -/
def c8_event : EventE :=
  { event_id := "ev1", duration := ⟨1 / 4, 0⟩, event_items := [.rest 1] }

def c8_seq : SequenceE := { sequence_id := "", items := [.event c8_event] }

def c8_bar : ScoreBarE :=
  { info := {}, bar_parts := [("P1", { sequences := [c8_seq] })] }

def c8_score : ScoreE := { parts := [{ part_id := "P1" }], bars := [c8_bar] }

/-- The document the emitter builds for c8_score. -/
def c8_doc : Json :=
  .obj [("mnx", .obj [("version", .num 1)]),
        ("global", .obj [("measures", .arr [.obj []])]),
        ("parts", .arr [.obj [("measures", .arr [.obj [("sequences",
          .arr [.obj [("content", .arr [.obj [("duration",
            .obj [("base", .str "quarter")]), ("rest", .obj [])]])]])]])]])]

theorem note_value_bases_quarter : note_value_bases ((4 : Rat)⁻¹) = some "quarter" := by
  norm_num [note_value_bases]

/-- Witness for C8 at the concrete score. -/
theorem put_score_deterministic_witness :
    encode_score_json c8_score = .ok c8_doc ∧
    put_score c8_score = put_score c8_score ∧
    put_score c8_score = serialize c8_doc := by
  have henc : encode_score_json c8_score = .ok c8_doc := by
    simp [c8_score, c8_bar, c8_seq, c8_event, c8_doc,
      encode_score_json, encode_part_list, encode_part, encode_part_measures,
      dict_get, encode_part_measure, encode_sequence_list, encode_sequence,
      encode_seq_items, encode_sequence_item, encode_event, encode_note_value,
      note_value_bases_quarter, is_rest_event, encode_global,
      encode_measure_global, timesig_changed, keysig_changed,
      List.range_succ, List.range_zero]
  have hnd : json_nodup_keys c8_doc = true := by
    simp [c8_doc, json_nodup_keys, json_nodup_keys_list, json_nodup_keys_pairs]
  have hperm : jkp c8_doc c8_doc := jkp_refl c8_doc hnd
  exact ⟨henc, (put_score_deterministic c8_score c8_doc c8_doc henc hperm).1,
    (put_score_deterministic c8_score c8_doc c8_doc henc hperm).2⟩

/-! ### C1: two tied quarter notes, reader plus MNX/JSON emitter -/

def c1_note1 : NoteE := { oid := 1, note_id := "note1", pitch := some ⟨"D", 4, 0⟩ }

def c1_note2 : NoteE := { oid := 2, note_id := "note2", pitch := some ⟨"D", 4, 0⟩ }

/-- The first note after the reader recorded the tie end on it. -/
def c1_note1T : NoteE := { c1_note1 with tie_end_note := some "note2" }

/-- The second note after the reader marked it referenced. -/
def c1_note2R : NoteE := { c1_note2 with is_referenced := true }

/-- Claim C1 (what the code actually does): for the two-tied-D4-quarters
scenario the reader behaves as claimed — after <tied type="start"> on the
first note and <tied type="stop"> on the second, the first note records
the second note's id (as the dynamically added tie_end_note attribute)
and the second note's is_referenced flag is set — but the MNX/JSON
emitter cannot produce the claimed output: its module initialization
raises AttributeError (missing Slur.INCOMPLETE_TYPE_* attributes), and
encode_note reads note.tie, an attribute neither Note.__init__ (which
defines `ties`) nor the reader (which sets `tie_end_note`) ever creates,
so emitting the first note raises AttributeError instead of producing
tie.target. -/
theorem tied_quarters_reader_ok_emitter_attribute_error :
    parse_tied_stop [c1_note1] c1_note2 = .ok (some (c1_note1T, c1_note2R), []) ∧
    c1_note1T.tie_end_note = some c1_note2R.note_id ∧
    c1_note2R.is_referenced = true ∧
    (note_attr_names c1_note1T).contains "tie" = false ∧
    encode_note c1_note1T = .error .attributeError ∧
    mnx_module_init = .error .attributeError := by
  refine ⟨?_, rfl, rfl, by decide, ?_, rfl⟩
  · rfl
  · rfl

end MnxConv
